import Mathlib

/-!
Verification development for the lead-prospecting crawler
(`main.py`, `modules/utils.py`, `modules/buscador.py`, `modules/extractor.py`,
`modules/gestor_datos.py`).

The Python code is shallowly embedded: every stateful routine becomes a pure
function over explicit state, file I/O becomes explicit arguments and returned
write traces, wall-clock reads (timestamps, flush timers, request delays) are
either omitted from the modelled record or passed in as parameters, and
third-party library calls (HTTP fetches, HTML parsing) are modelled as
explicit outcome values handed to the embedded function.
-/

namespace Utils

/-- `config/contador_busquedas.json` content (`fecha`, `busquedas_realizadas`). -/
structure DatosContador where
  fecha : String
  busquedas_realizadas : Nat
deriving DecidableEq, Repr

/-- `gestionar_contador_busquedas` from `modules/utils.py` (lines 112-147).
`archivo = none` models a missing file or a load error, in which case the
default `{fecha_actual, 0}` is kept; a stored date different from today
resets the counter to `0`. Returns `(busquedas hoy, fecha_actual)`. -/
def gestionar_contador_busquedas (fecha_actual : String) (archivo : Option DatosContador) :
    Nat × String :=
  match archivo with
  | none => (0, fecha_actual)
  | some datos =>
      if datos.fecha ≠ fecha_actual then (0, fecha_actual)
      else (datos.busquedas_realizadas, fecha_actual)

/-- The checkpoint dictionary persisted by `guardar_punto_control`
(`fecha_checkpoint`, a wall-clock timestamp, is omitted). -/
structure Checkpoint where
  activo : Bool
  comunidad_actual : String
  comunidad_idx : Nat
  keyword_actual : String
  keyword_idx : Nat
  ciudad_actual : String
  ciudad_idx : Nat
  en_ciudad : Bool
  comunidades_completadas : List String
deriving DecidableEq, Repr

/-- The default (fresh-start) checkpoint of `cargar_punto_control`. -/
def estadoDefecto : Checkpoint :=
  ⟨false, "", 0, "", 0, "", 0, false, []⟩

/-- `cargar_punto_control` from `modules/utils.py` (lines 186-220):
missing file or load error yields the default state, and a stored checkpoint
with `activo = false` is also replaced by the default state. -/
def cargar_punto_control (archivo : Option Checkpoint) : Checkpoint :=
  match archivo with
  | none => estadoDefecto
  | some estado => if estado.activo then estado else estadoDefecto

end Utils

namespace MainMod

open Utils

/-- The progress fields of `Prospector` updated by `actualizar_estado`. -/
structure Vars where
  comunidad_actual : String
  comunidad_idx : Nat
  keyword_actual : String
  keyword_idx : Nat
  ciudad_actual : String
  ciudad_idx : Nat
  en_ciudad : Bool
deriving DecidableEq, Repr

/-- `Prospector.actualizar_estado` (`main.py` lines 64-80): string fields are
only overwritten by truthy (non-empty) values, index fields only by
non-`None` values, mirrored here by `Option` arguments whose `none` is the
Python default. -/
def actualizar_estado (v : Vars) (comunidad : String) (comunidad_idx : Option Nat)
    (keyword : String) (keyword_idx : Option Nat) (ciudad : String)
    (ciudad_idx : Option Nat) (en_ciudad : Option Bool) : Vars :=
  ⟨if comunidad ≠ "" then comunidad else v.comunidad_actual,
   comunidad_idx.getD v.comunidad_idx,
   if keyword ≠ "" then keyword else v.keyword_actual,
   keyword_idx.getD v.keyword_idx,
   if ciudad ≠ "" then ciudad else v.ciudad_actual,
   ciudad_idx.getD v.ciudad_idx,
   en_ciudad.getD v.en_ciudad⟩

/-- One executed search unit: the zone searched, its kind (`"comunidad"` or
`"ciudad"`), the keyword, together with a snapshot of the progress variables
and of `comunidades_completadas` at the moment the search ran (what a
`KeyboardInterrupt` checkpoint written right after this unit would see). -/
structure ExecUnit where
  zona : String
  tipo_zona : String
  keyword : String
  vars : Vars
  completadas : List String
deriving DecidableEq, Repr

/-- The observable search unit `(zona, tipo_zona, keyword)`. -/
def ExecUnit.toSearchUnit (u : ExecUnit) : String × String × String :=
  (u.zona, u.tipo_zona, u.keyword)

/-- Configuration slice consumed by `Prospector.ejecutar_busqueda`:
`keywords`, `regiones['comunidades']`, `regiones['ciudades']` (an association
list, as the JSON object), and `limite_busquedas_diarias`. -/
structure RunCfg where
  keywords : List String
  comunidades : List String
  ciudades : List (String × List String)
  limite : Nat
deriving Repr

/-- Resume indices fixed at the top of `ejecutar_busqueda` from the loaded
checkpoint (`main.py` lines 104-112). -/
structure ResumeIdx where
  comIni : Nat
  kwIni : Nat
  ciuIni : Nat
  enCiudad : Bool
deriving Repr

/-- Mutable run state threaded through the traversal: the in-memory search
counter, `comunidades_completadas`, the progress variables, plus the traces
of executed units, checkpoint-file writes (`guardar_punto_control`) and
counter-file writes (`actualizar_contador_busquedas`), each in program
order. -/
structure RunSt where
  contador : Nat
  completadas : List String
  vars : Vars
  units : List ExecUnit
  cpWrites : List Checkpoint
  ctrWrites : List Nat
deriving Repr

/-- Keyword loop at comunidad level (`main.py` lines 159-198).  The search
call, URL extraction and record accumulation are external effects that do not
feed back into the traversal position, the counter, or the checkpoints, so
each executed search is recorded as an `ExecUnit` instead.  Returns the state
together with `true` when the loop exited through the budget `break`
(line 181). -/
def comKwLoop (cfg : RunCfg) (comunidad : String) (cIdx : Nat) :
    List String → Nat → RunSt → RunSt × Bool
  | [], _, st => (st, false)
  | kw :: rest, kIdx, st =>
      let st := { st with
        vars := actualizar_estado st.vars "" none kw (some kIdx) "" none none }
      if cfg.limite ≤ st.contador then
        let cp : Checkpoint :=
          ⟨true, comunidad, cIdx, kw, kIdx, "", 0, false, st.completadas⟩
        ({ st with cpWrites := st.cpWrites ++ [cp] }, true)
      else
        let st := { st with contador := st.contador + 1 }
        let st := { st with
          units := st.units ++ [(⟨comunidad, "comunidad", kw, st.vars, st.completadas⟩ : ExecUnit)] }
        let st := { st with ctrWrites := st.ctrWrites ++ [st.contador] }
        comKwLoop cfg comunidad cIdx rest (kIdx + 1) st

/-- Keyword loop inside a city (`main.py` lines 219-256). -/
def ciuKwLoop (cfg : RunCfg) (comunidad : String) (cIdx : Nat) (ciudad : String)
    (ciIdx : Nat) : List String → Nat → RunSt → RunSt × Bool
  | [], _, st => (st, false)
  | kw :: rest, kIdx, st =>
      let st := { st with
        vars := actualizar_estado st.vars "" none kw (some kIdx) "" none none }
      if cfg.limite ≤ st.contador then
        let cp : Checkpoint :=
          ⟨true, comunidad, cIdx, kw, kIdx, ciudad, ciIdx, true, st.completadas⟩
        ({ st with cpWrites := st.cpWrites ++ [cp] }, true)
      else
        let st := { st with contador := st.contador + 1 }
        let st := { st with
          units := st.units ++ [(⟨ciudad, "ciudad", kw, st.vars, st.completadas⟩ : ExecUnit)] }
        let st := { st with ctrWrites := st.ctrWrites ++ [st.contador] }
        ciuKwLoop cfg comunidad cIdx ciudad ciIdx rest (kIdx + 1) st

/-- City loop of one comunidad (`main.py` lines 209-260).  `cIni` is the
start index `c_inicio` computed at line 207.  Returns `true` when the loop
exited through the budget check at line 259. -/
def ciudadLoop (cfg : RunCfg) (ri : ResumeIdx) (comunidad : String) (cIdx : Nat)
    (cIni : Nat) : List String → Nat → RunSt → RunSt × Bool
  | [], _, st => (st, false)
  | ciudad :: rest, ciIdx, st =>
      let st := { st with
        vars := actualizar_estado st.vars "" none "" none ciudad (some ciIdx) (some true) }
      let kwIni :=
        if cIdx = ri.comIni ∧ ciIdx = cIni ∧ ri.enCiudad then ri.kwIni else 0
      let p := ciuKwLoop cfg comunidad cIdx ciudad ciIdx
        (cfg.keywords.drop kwIni) kwIni st
      let st := p.1
      if cfg.limite ≤ st.contador then (st, true)
      else ciudadLoop cfg ri comunidad cIdx cIni rest (ciIdx + 1) st

/-- Comunidad loop (`main.py` lines 145-282), including the skip of already
completed comunidades, the budget breaks at lines 201 and 263, and the
completion checkpoint of lines 266-282. -/
def comunidadLoop (cfg : RunCfg) (ri : ResumeIdx) :
    List String → Nat → RunSt → RunSt
  | [], _, st => st
  | comunidad :: rest, cIdx, st =>
      let st := { st with
        vars := actualizar_estado st.vars comunidad (some cIdx) "" none "" none none }
      if comunidad ∈ st.completadas then comunidadLoop cfg ri rest (cIdx + 1) st
      else
        let kIni := if cIdx = ri.comIni then ri.kwIni else 0
        let p := comKwLoop cfg comunidad cIdx (cfg.keywords.drop kIni) kIni st
        let st := p.1
        if cfg.limite ≤ st.contador then st
        else
          let q :=
            match cfg.ciudades.lookup comunidad with
            | some lista =>
                let cIni := if cIdx = ri.comIni ∧ ri.enCiudad then ri.ciuIni else 0
                let r := ciudadLoop cfg ri comunidad cIdx cIni
                  (lista.drop cIni) cIni st
                (r.1, if cfg.limite ≤ r.1.contador then true else false)
            | none => (st, false)
          let st := q.1
          if q.2 then st
          else
            let st := { st with completadas := st.completadas ++ [comunidad] }
            let cp : Checkpoint := ⟨true, "", cIdx + 1, "", 0, "", 0, false, st.completadas⟩
            let st := { st with cpWrites := st.cpWrites ++ [cp] }
            comunidadLoop cfg ri rest (cIdx + 1) st

/-- `Prospector.ejecutar_busqueda` (`main.py` lines 82-307) applied to the
checkpoint returned by `cargar_punto_control` and the counter returned by
`gestionar_contador_busquedas`.  Mirrors: the resume indices (104-112), the
initial `actualizar_estado` (122-130), the early return when the budget is
already exhausted (133-142), the traversal, and the unconditional checkpoint
reset of lines 284-297, which Python executes even when the comunidad loop
was left through a budget `break`. -/
def ejecutar_busqueda (cfg : RunCfg) (checkpoint : Checkpoint) (contador : Nat) : RunSt :=
  let ri : ResumeIdx :=
    ⟨if checkpoint.activo then checkpoint.comunidad_idx else 0,
     if checkpoint.activo then checkpoint.keyword_idx else 0,
     if checkpoint.activo then checkpoint.ciudad_idx else 0,
     if checkpoint.activo then checkpoint.en_ciudad else false⟩
  let completadas := if checkpoint.activo then checkpoint.comunidades_completadas else []
  let vars0 : Vars := ⟨"", 0, "", 0, "", 0, false⟩
  let vars1 := actualizar_estado vars0 checkpoint.comunidad_actual (some ri.comIni)
    checkpoint.keyword_actual (some ri.kwIni) checkpoint.ciudad_actual
    (some ri.ciuIni) (some ri.enCiudad)
  let st0 : RunSt := ⟨contador, completadas, vars1, [], [], []⟩
  if cfg.limite ≤ contador then st0
  else
    let st := comunidadLoop cfg ri (cfg.comunidades.drop ri.comIni) ri.comIni st0
    { st with cpWrites := st.cpWrites ++ [⟨false, "", 0, "", 0, "", 0, false, []⟩] }

/-- The checkpoint the `KeyboardInterrupt` handler in `main` (`main.py`
lines 324-345) would persist if the run were interrupted right after its
`n`-th executed search unit: it copies the prospector's progress variables
and `comunidades_completadas` as they stand at that moment. -/
def interruptCheckpoint (r : RunSt) (n : Nat) : Checkpoint :=
  match r.units[n - 1]? with
  | some u =>
      ⟨true, u.vars.comunidad_actual, u.vars.comunidad_idx, u.vars.keyword_actual,
       u.vars.keyword_idx, u.vars.ciudad_actual, u.vars.ciudad_idx,
       u.vars.en_ciudad, u.completadas⟩
  | none => estadoDefecto

end MainMod

namespace GestorDatos

/-- The keys of a contact dictionary that `GestorDatos` reads
(`contacto.get('url')`, `contacto.get('telefono')`, `'es_relevante' in
contacto`); `none` models an absent key. -/
structure ContactoDict where
  url : Option String
  telefono : Option String
  es_relevante : Option Bool
deriving DecidableEq, Repr

/-- Python truthiness of an optional string (`None` and `""` are falsy). -/
def truthy : Option String → Bool
  | none => false
  | some s => s ≠ ""

/-- The dedup key a contact contributes to `telefonos_vistos`: its phone
when that phone is truthy. -/
def telKey (c : ContactoDict) : Option String :=
  if truthy c.telefono then some (c.telefono.getD "") else none

/-- `GestorDatos` state: the record list and the two seen-key sets (Python
sets, modelled as lists used only through membership). -/
structure GestorSt where
  contactos : List ContactoDict
  urls_vistas : List (Option String)
  telefonos_vistos : List String
deriving Repr

/-- Loop body of `GestorDatos.eliminar_duplicados` (`gestor_datos.py`
lines 101-109): rebuild the unique list and fresh seen-sets. -/
def eliminarAux : List ContactoDict → List ContactoDict → List (Option String) →
    List String → List ContactoDict × List (Option String) × List String
  | [], acc, urls, tels => (acc, urls, tels)
  | c :: rest, acc, urls, tels =>
      if c.url ∉ urls ∧ (truthy c.telefono = false ∨ c.telefono.getD "" ∉ tels) then
        eliminarAux rest (acc ++ [c]) (c.url :: urls)
          (if truthy c.telefono then c.telefono.getD "" :: tels else tels)
      else
        eliminarAux rest acc urls tels

/-- `GestorDatos.eliminar_duplicados` (`gestor_datos.py` lines 95-113). -/
def eliminar_duplicados (st : GestorSt) : GestorSt :=
  let r := eliminarAux st.contactos [] [] []
  ⟨r.1, r.2.1, r.2.2⟩

/-- `GestorDatos.agregar_contacto` (`gestor_datos.py` lines 32-76).
`filtrar_sin_telefono` is the configuration flag; `debe_guardar` tells
whether the wall-clock test `delta >= intervalo_guardado` fired, in which
case `guardar_resultados` runs `eliminar_duplicados` on the new state (its
file writes are external I/O).  Returns the new state and the Bool result. -/
def agregar_contacto (filtrar_sin_telefono debe_guardar : Bool) (st : GestorSt)
    (c : ContactoDict) : GestorSt × Bool :=
  if c.url ∈ st.urls_vistas then (st, false)
  else if truthy c.telefono = true ∧ c.telefono.getD "" ∈ st.telefonos_vistos then
    (st, false)
  else if c.es_relevante = some false then (st, false)
  else if filtrar_sin_telefono = true ∧ truthy c.telefono = false then (st, false)
  else
    let st1 : GestorSt :=
      ⟨st.contactos ++ [c], c.url :: st.urls_vistas,
       if truthy c.telefono then c.telefono.getD "" :: st.telefonos_vistos
       else st.telefonos_vistos⟩
    (if debe_guardar then eliminar_duplicados st1 else st1, true)

/-- The dedup invariant of the record store: stored records have pairwise
distinct `url`s, pairwise distinct truthy phones, and every stored key is
registered in the corresponding seen-set. -/
def Inv (st : GestorSt) : Prop :=
  (st.contactos.map ContactoDict.url).Nodup ∧
  (st.contactos.filterMap telKey).Nodup ∧
  (∀ c ∈ st.contactos, c.url ∈ st.urls_vistas) ∧
  (∀ c ∈ st.contactos, ∀ t, telKey c = some t → t ∈ st.telefonos_vistos)

end GestorDatos

namespace PyStr

/-- ASCII lowercase of a string, modelling `str.lower()` on the ASCII texts
this program handles. -/
def lower (s : String) : String :=
  String.mk (s.toList.map Char.toLower)

/-- `needle in haystack` on Python strings: substring containment
(the empty needle is contained in everything, as in Python). -/
def containsSub (hay needle : List Char) : Bool :=
  match hay with
  | [] => needle.isEmpty
  | _ :: rest => needle.isPrefixOf hay || containsSub rest needle

/-- `s.split(sep)` for a one-character separator, keeping empty pieces. -/
def splitOnChar (sep : Char) : List Char → List (List Char)
  | [] => [[]]
  | c :: rest =>
      let r := splitOnChar sep rest
      if c = sep then [] :: r
      else
        match r with
        | h :: t => (c :: h) :: t
        | [] => [[c]]

/-- `s.strip()`: remove leading and trailing whitespace. -/
def strip (s : String) : String :=
  String.mk (((s.toList.dropWhile Char.isWhitespace).reverse.dropWhile
    Char.isWhitespace).reverse)

/-- `str.replace(old, new)` for a non-empty `old`: replace every
non-overlapping occurrence left to right.  The fuel argument (instantiated
with the input length, which bounds the number of steps) keeps the
recursion structural so that proofs can evaluate it. -/
def replaceAllAux (pat rep : List Char) : Nat → List Char → List Char
  | 0, l => l
  | _ + 1, [] => []
  | fuel + 1, c :: rest =>
      if pat ≠ [] ∧ pat.isPrefixOf (c :: rest) then
        rep ++ replaceAllAux pat rep fuel ((c :: rest).drop pat.length)
      else
        c :: replaceAllAux pat rep fuel rest

/-- `s.replace(pat, rep)`. -/
def replaceAll (pat rep l : List Char) : List Char :=
  replaceAllAux pat rep l.length l

/-- One character of `urllib.parse.quote` output (default `safe='/'`,
ASCII input): unreserved characters and `'/'` pass through, everything else
is percent-encoded in uppercase hex. -/
def quoteChar (c : Char) : List Char :=
  if c.isAlpha || c.isDigit || c = '_' || c = '.' || c = '-' || c = '~' || c = '/' then
    [c]
  else
    let n := c.toNat
    let hex : Nat → Char := fun d =>
      if d < 10 then Char.ofNat ('0'.toNat + d) else Char.ofNat ('A'.toNat + (d - 10))
    ['%', hex (n / 16 % 16), hex (n % 16)]

/-- `urllib.parse.quote` on ASCII input. -/
def quote (s : String) : String :=
  String.mk (s.toList.flatMap quoteChar)

end PyStr

namespace BaseExtractor

/-- Python regex `\w` on the ASCII range. -/
def isWordChar (c : Char) : Bool :=
  c.isAlpha || c.isDigit || c = '_'

/-- A character of the classes `[\w\.-]` used by the email pattern
`[\w\.-]+@[\w\.-]+\.\w+` (`extractor.py` line 32). -/
def isEmailChar (c : Char) : Bool :=
  isWordChar c || c = '.' || c = '-'

/-- Domain split for the email pattern: after the `@`, the run `r` of
email characters must split as `dom ++ '.' :: tld ++ leftover` where the
greedy `[\w\.-]+` keeps `dom` as long as possible (the regex engine
backtracks from the longest prefix), `dom` is non-empty, and `tld` is the
maximal non-empty `\w` run after that dot. -/
def splitDomain (r : List Char) : Option (List Char × List Char × List Char) :=
  match ((List.range r.length).reverse.find? fun k =>
      decide (1 ≤ k) && decide (r[k]? = some '.') &&
        ((r[k + 1]?).map isWordChar).getD false) with
  | none => none
  | some k =>
      let after := r.drop (k + 1)
      some (r.take k, after.takeWhile isWordChar, after.dropWhile isWordChar)

/-- Try to match `[\w\.-]+@[\w\.-]+\.\w+` at the head of `l`; on success
return the matched text and the remaining input after the match. -/
def matchEmailAt (l : List Char) : Option (List Char × List Char) :=
  let r1 := l.takeWhile isEmailChar
  if r1.isEmpty then none
  else
    match l.drop r1.length with
    | '@' :: rest2 =>
        let r2 := rest2.takeWhile isEmailChar
        match splitDomain r2 with
        | some (dom, tld, leftover) =>
            some (r1 ++ '@' :: (dom ++ '.' :: tld), leftover ++ rest2.drop r2.length)
        | none => none
    | _ => none

/-- The first (leftmost) match of the email pattern in a text:
`re.findall(email_pattern, text)[0]` when a match exists.  The engine
advances one character on failure, as Python's scanner does. -/
def findFirstEmail : List Char → Option (List Char)
  | [] => none
  | c :: rest =>
      match matchEmailAt (c :: rest) with
      | some (m, _) => some m
      | none => findFirstEmail rest

/-- Candidates, in regex-engine order, for the optional prefix `(?:\+34|34)?`
of the phone pattern (`extractor.py` line 33): the consumed text paired with
the remaining input. -/
def cands34 (l : List Char) : List (List Char × List Char) :=
  (if ['+', '3', '4'].isPrefixOf l then [((['+', '3', '4'] : List Char), l.drop 3)] else []) ++
    (if ['3', '4'].isPrefixOf l then [((['3', '4'] : List Char), l.drop 2)] else []) ++
    [(([] : List Char), l)]

/-- Candidates, in engine order, for the optional separator `[ -]?`. -/
def candsSep (l : List Char) : List (List Char × List Char) :=
  (match l with
   | c :: r => if c = ' ' || c = '-' then [([c], r)] else []
   | [] => []) ++ [(([] : List Char), l)]

/-- Exactly `n` digits (`\d{n}`) at the head of the input. -/
def takeDigits : Nat → List Char → Option (List Char × List Char)
  | 0, l => some ([], l)
  | n + 1, c :: r =>
      if c.isDigit then (takeDigits n r).map fun p => (c :: p.1, p.2)
      else none
  | _ + 1, [] => none

/-- Candidates for one group `(?:[ -]?\d{2})`. -/
def candsGroup (l : List Char) : List (List Char × List Char) :=
  (candsSep l).filterMap fun p =>
    (takeDigits 2 p.2).map fun q => (p.1 ++ q.1, q.2)

/-- Candidates for `(?:[ -]?\d{2}){n}` with full backtracking across the
repetitions, in engine order. -/
def candsRep : Nat → List Char → List (List Char × List Char)
  | 0, l => [([], l)]
  | n + 1, l =>
      (candsGroup l).flatMap fun p =>
        (candsRep n p.2).map fun q => (p.1 ++ q.1, q.2)

/-- First alternative `(?:\+34|34)?[ -]?[6789]\d{8}` of the phone pattern. -/
def phoneBranch1 (l : List Char) : Option (List Char × List Char) :=
  ((cands34 l).flatMap fun p =>
    (candsSep p.2).flatMap fun q =>
      match q.2 with
      | c :: r3 =>
          if c = '6' || c = '7' || c = '8' || c = '9' then
            ((takeDigits 8 r3).map fun d => (p.1 ++ q.1 ++ c :: d.1, d.2)).toList
          else []
      | [] => []).head?

/-- Second alternative `(?:\+34|34)?[ -]?[6789](?:[ -]?\d{2}){4}`. -/
def phoneBranch2 (l : List Char) : Option (List Char × List Char) :=
  ((cands34 l).flatMap fun p =>
    (candsSep p.2).flatMap fun q =>
      match q.2 with
      | c :: r3 =>
          if c = '6' || c = '7' || c = '8' || c = '9' then
            (candsRep 4 r3).map fun d => (p.1 ++ q.1 ++ c :: d.1, d.2)
          else []
      | [] => []).head?

/-- Try the phone pattern at the head of the input (first alternative
preferred, as in the regex). -/
def matchPhoneAt (l : List Char) : Option (List Char × List Char) :=
  match phoneBranch1 l with
  | some m => some m
  | none => phoneBranch2 l

/-- All matches of the phone pattern, scanning left to right and resuming
after each match (`re.findall`).  The fuel argument (instantiated with the
input length, which bounds the number of scan steps) keeps the recursion
structural. -/
def findAllPhonesAux : Nat → List Char → List (List Char)
  | 0, _ => []
  | _ + 1, [] => []
  | fuel + 1, c :: rest =>
      match matchPhoneAt (c :: rest) with
      | some (m, after) => m :: findAllPhonesAux fuel after
      | none => findAllPhonesAux fuel rest

/-- `re.findall(phone_pattern, text)`. -/
def findAllPhones (l : List Char) : List (List Char) :=
  findAllPhonesAux l.length l

/-- The first match of the phone pattern, `re.findall(...)[0]`. -/
def findFirstPhone (l : List Char) : Option (List Char) :=
  (findAllPhones l).head?

/-- Characters kept by `re.sub(r'[^0-9+]', '', telefono)`. -/
def phoneKeep (c : Char) : Bool :=
  c.isDigit || c = '+'

/-- `BaseExtractor.normalizar_telefono` (`extractor.py` lines 60-83). -/
def normalizar_telefono (telefono : String) : String :=
  if telefono = "" then ""
  else
    let limpio := telefono.toList.filter phoneKeep
    if limpio.head? = some '+' then String.mk limpio
    else if ['3', '4'].isPrefixOf limpio then String.mk ('+' :: limpio)
    else String.mk ('+' :: '3' :: '4' :: limpio)

/-- `BaseExtractor.generar_link_whatsapp` (`extractor.py` lines 85-100). -/
def generar_link_whatsapp (telefono : String) : Option String :=
  if telefono = "" then none
  else
    let limpio := PyStr.replaceAll ['-'] []
      (PyStr.replaceAll [' '] [] (PyStr.replaceAll ['+', '3', '4'] [] telefono.toList))
    some ("https://wa.me/34" ++ String.mk limpio ++ "?text=" ++
      PyStr.quote "mensaje a enviar... ")

end BaseExtractor

/-- A contact record as built by the extractors (`extractor.py`); the
`fecha_extraccion` timestamp is wall-clock I/O and is omitted. -/
structure Registro where
  url : String
  zona : String
  tipo_zona : String
  keyword : String
  email : Option String
  telefono : Option String
  whatsapp_link : Option String
  nombre : Option String
deriving DecidableEq, Repr

/-- The bare record `{url, zona, tipo_zona, keyword}` both extractors start
from. -/
def Registro.base (url zona tipo_zona keyword : String) : Registro :=
  ⟨url, zona, tipo_zona, keyword, none, none, none, none⟩

/-- `url.split('/')[2]`, the host part of the URL; `none` models the
`IndexError` Python raises when the URL has fewer than three `/`-separated
parts. -/
def urlHost (url : String) : Option String :=
  ((PyStr.splitOnChar '/' url.toList)[2]?).map String.mk

/-- `title.split('|')[0].strip()`. -/
def nombreDeTitulo (titulo : String) : String :=
  PyStr.strip (String.mk (titulo.toList.takeWhile (· ≠ '|')))

namespace StaticExtractor

/-- Outcome of `requests.get` plus BeautifulSoup parsing for the static
extractor: the HTTP status, the visible text `soup.get_text()`, and the
`<title>` text when the page has one. -/
structure RespuestaHttp where
  status : Nat
  texto_visible : String
  titulo : Option String
deriving Repr

/-- `StaticExtractor.extraer_info` (`extractor.py` lines 137-211).
`robots_permitido` is the `_verificar_robots_txt` verdict; `respuesta = none`
models an exception raised by the fetch (caught at line 209, returning the
bare record).  On a missing host (`urlHost = none`) with no title, the
`IndexError` of line 196 is caught by the same handler after the email and
phone fields were already set, exactly as the Python dict mutation order
implies. -/
def extraer_info (url zona tipo_zona keyword : String) (robots_permitido : Bool)
    (respuesta : Option RespuestaHttp) : Registro :=
  let contacto := Registro.base url zona tipo_zona keyword
  if robots_permitido = false then contacto
  else
    match respuesta with
    | none => contacto
    | some r =>
        if r.status ≠ 200 then contacto
        else
          let email := (BaseExtractor.findFirstEmail r.texto_visible.toList).map
            fun m => PyStr.lower (String.mk m)
          let tel := (BaseExtractor.findFirstPhone r.texto_visible.toList).map
            fun m => BaseExtractor.normalizar_telefono (String.mk m)
          let wa := tel.bind BaseExtractor.generar_link_whatsapp
          let parcial := { contacto with
            email := email, telefono := tel, whatsapp_link := wa }
          match r.titulo with
          | some t => { parcial with nombre := some (nombreDeTitulo t) }
          | none =>
              match urlHost url with
              | some h => { parcial with nombre := some h }
              | none => parcial

end StaticExtractor

namespace DynamicExtractor

/-- Outcome of the selenium fetch: `none` when `driver.get` (or anything
before the email scan) raised, otherwise the rendered `page_source` and the
result of reading `driver.title` (`none` when that read raised). -/
structure PaginaSelenium where
  page_source : String
  titulo : Option String
deriving Repr

/-- First phone match whose normalization is truthy, as in the loop of
`extractor.py` lines 302-308. -/
def primerTelefonoValido : List (List Char) → Option String
  | [] => none
  | m :: rest =>
      let tn := BaseExtractor.normalizar_telefono (String.mk m)
      if tn ≠ "" then some tn else primerTelefonoValido rest

/-- `DynamicExtractor.extraer_info` (`extractor.py` lines 254-330): same
shape as the static variant, but email and phone are matched against the
raw `page_source` and the title read has its own fallback to the URL host
(lines 311-315), whose `IndexError` escapes to the outer handler. -/
def extraer_info (url zona tipo_zona keyword : String) (robots_permitido : Bool)
    (pagina : Option PaginaSelenium) : Registro :=
  let contacto := Registro.base url zona tipo_zona keyword
  if robots_permitido = false then contacto
  else
    match pagina with
    | none => contacto
    | some p =>
        let email := (BaseExtractor.findFirstEmail p.page_source.toList).map
          fun m => PyStr.lower (String.mk m)
        let tel := primerTelefonoValido (BaseExtractor.findAllPhones p.page_source.toList)
        let wa := tel.bind BaseExtractor.generar_link_whatsapp
        let parcial := { contacto with
          email := email, telefono := tel, whatsapp_link := wa }
        match p.titulo with
        | some t => { parcial with nombre := some (nombreDeTitulo t) }
        | none =>
            match urlHost url with
            | some h => { parcial with nombre := some h }
            | none => parcial

end DynamicExtractor

namespace Buscador

/-- Outcome of the Google Custom Search HTTP call in `GoogleBuscador.buscar`
(`buscador.py` lines 103-128): `raisedRequest` covers a
`requests.exceptions.RequestException` (including the `raise_for_status`
on a non-2xx response), `raisedOther` any other exception, and `ok` a JSON
body whose `items` key is absent (`none`) or a list of items, each with an
optional `link` field (`none` models a missing key, whose `KeyError` lands
in the generic handler). -/
inductive Respuesta where
  | raisedRequest : Respuesta
  | raisedOther : Respuesta
  | ok : Option (List (Option String)) → Respuesta

/-- The collection loop of lines 110-114: stop at `resultados_max` URLs,
abort with `none` (an exception) on an item without `link`. -/
def collect (maxR : Nat) (acc : List String) : List (Option String) → Option (List String)
  | [] => some acc.reverse
  | it :: rest =>
      if maxR ≤ acc.length then some acc.reverse
      else
        match it with
        | none => none
        | some l => collect maxR (l :: acc) rest

/-- `GoogleBuscador.buscar`: every exception path degrades to `[]`. -/
def buscar (resultados_max : Nat) (respuesta : Respuesta) : List String :=
  match respuesta with
  | .raisedRequest => []
  | .raisedOther => []
  | .ok none => []
  | .ok (some items) =>
      match collect resultados_max [] items with
      | none => []
      | some urls => urls

end Buscador

namespace Evaluador

/-- One sector entry of `config/filtros_busqueda.json`. -/
structure SectorConfig where
  terminos_relevantes : List String
  terminos_irrelevantes : List String
deriving Repr

/-- The filter configuration as read by `EvaluadorRelevancia.__init__`:
the sector table and the active sector name (already defaulted to
`"default"` when absent). -/
structure Filtros where
  sectores : List (String × SectorConfig)
  sector_activo : String
deriving Repr

/-- `EvaluadorRelevancia._obtener_terminos_relevancia` (`extractor.py`
lines 360-377): fall back to the `"default"` sector, then to empty term
lists. Returns `(relevantes, irrelevantes)`. -/
def _obtener_terminos_relevancia (f : Filtros) : List String × List String :=
  match f.sectores.lookup f.sector_activo with
  | none =>
      match f.sectores.lookup "default" with
      | none => ([], [])
      | some sc => (sc.terminos_relevantes, sc.terminos_irrelevantes)
  | some sc => (sc.terminos_relevantes, sc.terminos_irrelevantes)

/-- Result of `EvaluadorRelevancia.evaluar_pagina` (the two raw counters it
also returns are determined by the score computation and omitted). -/
structure Evaluacion where
  es_relevante : Bool
  puntuacion : ℚ
  razon : String
deriving Repr

/-- `term in texto` for Python strings. -/
def enTexto (texto : String) (term : String) : Bool :=
  PyStr.containsSub texto.toList term.toList

/-- `EvaluadorRelevancia.evaluar_pagina` (`extractor.py` lines 379-426).
Python's float arithmetic on these small integer ratios is modelled with
exact rationals. -/
def evaluar_pagina (f : Filtros) (texto titulo : String) : Evaluacion :=
  let terminos := _obtener_terminos_relevancia f
  let texto_lower := PyStr.lower texto
  let titulo_lower := if titulo ≠ "" then PyStr.lower titulo else ""
  let relevantes_encontrados := terminos.1.countP (enTexto texto_lower)
  let relevantes_en_titulo := 2 * terminos.1.countP (enTexto titulo_lower)
  let irrelevantes_encontrados := terminos.2.countP (enTexto texto_lower)
  let puntuacion_total : ℤ :=
    (relevantes_encontrados : ℤ) + (relevantes_en_titulo : ℤ) -
      (irrelevantes_encontrados : ℤ)
  let max_posible := 3 * terminos.1.length
  let puntuacion_normalizada : ℚ :=
    min 100 (max 0 ((puntuacion_total : ℚ) / (max 1 max_posible : ℕ) * 100))
  let umbral : ℚ := 40
  let es_relevante := umbral ≤ puntuacion_normalizada
  ⟨es_relevante, puntuacion_normalizada,
   if (70 : ℚ) ≤ puntuacion_normalizada then "Alta relevancia: probable revendedor"
   else if umbral ≤ puntuacion_normalizada then "Relevancia media: posible revendedor"
   else "Baja relevancia: probablemente no es revendedor"⟩

end Evaluador

/-! Concrete inputs used to settle the orchestrator claims. -/

/-- C1 scenario: one comunidad, two keywords, no cities, daily ceiling 1. -/
def cfgC1 : MainMod.RunCfg := ⟨["k0", "k1"], ["A"], [], 1⟩

/-- The C1 run: fresh checkpoint, counter 0. -/
def runC1 : MainMod.RunSt :=
  MainMod.ejecutar_busqueda cfgC1 (Utils.cargar_punto_control none) 0

/-- C2 scenario: comunidades `A` (city `a0`) and `B` (cities `b0`, `b1`),
two keywords, ample budget. -/
def cfgC2 : MainMod.RunCfg :=
  ⟨["k0", "k1"], ["A", "B"], [("A", ["a0"]), ("B", ["b0", "b1"])], 100⟩

/-- The uninterrupted C2 run. -/
def fullC2 : MainMod.RunSt :=
  MainMod.ejecutar_busqueda cfgC2 (Utils.cargar_punto_control none) 0

/-- The C2 run resumed from the checkpoint a `KeyboardInterrupt` right after
the 6th executed search unit would persist. -/
def resumedC2 : MainMod.RunSt :=
  MainMod.ejecutar_busqueda cfgC2
    (Utils.cargar_punto_control (some (MainMod.interruptCheckpoint fullC2 6))) 6

/-! Helper lemmas. -/

namespace MainMod

/-- Counter-write trace invariant: every persisted counter value is at most
the daily ceiling, and there is exactly one counter write per executed
search unit. -/
def CtrOk (limite : Nat) (st : RunSt) : Prop :=
  (∀ v ∈ st.ctrWrites, v ≤ limite) ∧ st.ctrWrites.length = st.units.length

theorem ctrOk_comKwLoop (cfg : RunCfg) (com : String) (cIdx : Nat)
    (kws : List String) :
    ∀ (kIdx : Nat) (st : RunSt), CtrOk cfg.limite st →
      CtrOk cfg.limite (comKwLoop cfg com cIdx kws kIdx st).1 := by
  induction kws with
  | nil => intro kIdx st h; simpa [comKwLoop] using h
  | cons kw rest ih =>
      intro kIdx st h
      simp only [comKwLoop]
      split
      · exact h
      · next hlt =>
          apply ih
          refine ⟨?_, ?_⟩
          · intro v hv
            simp only [List.mem_append, List.mem_singleton] at hv
            rcases hv with hv | hv
            · exact h.1 v hv
            · subst hv; omega
          · simp [h.2]

theorem ctrOk_ciuKwLoop (cfg : RunCfg) (com : String) (cIdx : Nat)
    (ciu : String) (ciIdx : Nat) (kws : List String) :
    ∀ (kIdx : Nat) (st : RunSt), CtrOk cfg.limite st →
      CtrOk cfg.limite (ciuKwLoop cfg com cIdx ciu ciIdx kws kIdx st).1 := by
  induction kws with
  | nil => intro kIdx st h; simpa [ciuKwLoop] using h
  | cons kw rest ih =>
      intro kIdx st h
      simp only [ciuKwLoop]
      split
      · exact h
      · next hlt =>
          apply ih
          refine ⟨?_, ?_⟩
          · intro v hv
            simp only [List.mem_append, List.mem_singleton] at hv
            rcases hv with hv | hv
            · exact h.1 v hv
            · subst hv; omega
          · simp [h.2]

theorem ctrOk_ciudadLoop (cfg : RunCfg) (ri : ResumeIdx) (com : String)
    (cIdx cIni : Nat) (ciudades : List String) :
    ∀ (ciIdx : Nat) (st : RunSt), CtrOk cfg.limite st →
      CtrOk cfg.limite (ciudadLoop cfg ri com cIdx cIni ciudades ciIdx st).1 := by
  induction ciudades with
  | nil => intro ciIdx st h; simpa [ciudadLoop] using h
  | cons ciu rest ih =>
      intro ciIdx st h
      simp only [ciudadLoop]
      repeat' split
      all_goals first
        | exact ctrOk_ciuKwLoop _ _ _ _ _ _ _ _ h
        | exact ih _ _ (ctrOk_ciuKwLoop _ _ _ _ _ _ _ _ h)

theorem ctrOk_comunidadLoop (cfg : RunCfg) (ri : ResumeIdx)
    (comunidades : List String) :
    ∀ (cIdx : Nat) (st : RunSt), CtrOk cfg.limite st →
      CtrOk cfg.limite (comunidadLoop cfg ri comunidades cIdx st) := by
  induction comunidades with
  | nil => intro cIdx st h; simpa [comunidadLoop] using h
  | cons com rest ih =>
      intro cIdx st h
      simp only [comunidadLoop]
      repeat' split
      all_goals first
        | exact ih _ _ h
        | exact ctrOk_comKwLoop _ _ _ _ _ _ h
        | exact ctrOk_ciudadLoop _ _ _ _ _ _ _ _ (ctrOk_comKwLoop _ _ _ _ _ _ h)
        | exact ih _ _ (ctrOk_comKwLoop _ _ _ _ _ _ h)
        | exact ih _ _ (ctrOk_ciudadLoop _ _ _ _ _ _ _ _ (ctrOk_comKwLoop _ _ _ _ _ _ h))

theorem ctrOk_ejecutar_busqueda (cfg : RunCfg) (cp : Utils.Checkpoint)
    (contador : Nat) : CtrOk cfg.limite (ejecutar_busqueda cfg cp contador) := by
  simp only [ejecutar_busqueda]
  split
  · exact ⟨by intro v hv; exact absurd hv (List.not_mem_nil v), rfl⟩
  · have h := ctrOk_comunidadLoop cfg
      ⟨if cp.activo then cp.comunidad_idx else 0,
       if cp.activo then cp.keyword_idx else 0,
       if cp.activo then cp.ciudad_idx else 0,
       if cp.activo then cp.en_ciudad else false⟩
      (cfg.comunidades.drop (if cp.activo then cp.comunidad_idx else 0))
      (if cp.activo then cp.comunidad_idx else 0)
      ⟨contador, if cp.activo then cp.comunidades_completadas else [],
       actualizar_estado ⟨"", 0, "", 0, "", 0, false⟩ cp.comunidad_actual
         (some (if cp.activo then cp.comunidad_idx else 0)) cp.keyword_actual
         (some (if cp.activo then cp.keyword_idx else 0)) cp.ciudad_actual
         (some (if cp.activo then cp.ciudad_idx else 0))
         (some (if cp.activo then cp.en_ciudad else false)),
       [], [], []⟩
      ⟨by intro v hv; exact absurd hv (List.not_mem_nil v), rfl⟩
    exact ⟨h.1, by simpa using h.2⟩

end MainMod

namespace GestorDatos

theorem nodup_append_single {α : Type _} {l : List α} {a : α} (h : l.Nodup)
    (ha : a ∉ l) : (l ++ [a]).Nodup := by
  simp [List.nodup_append, h, ha]

theorem telKey_eq_some {c : ContactoDict} {t : String} (h : telKey c = some t) :
    truthy c.telefono = true ∧ c.telefono.getD "" = t := by
  unfold telKey at h
  split at h
  · exact ⟨by assumption, by simpa using h⟩
  · exact absurd h (by simp)

/-- Extending a collection that satisfies the dedup invariant by one record
whose keys are fresh for the seen-sets. -/
theorem inv_extend (contactos : List ContactoDict) (urls : List (Option String))
    (tels tels' : List String) (c : ContactoDict)
    (h1 : (contactos.map ContactoDict.url).Nodup)
    (h2 : (contactos.filterMap telKey).Nodup)
    (h3 : ∀ d ∈ contactos, d.url ∈ urls)
    (h4 : ∀ d ∈ contactos, ∀ t, telKey d = some t → t ∈ tels)
    (hc1 : c.url ∉ urls)
    (hc2 : ∀ t, telKey c = some t → t ∉ tels)
    (htels : ∀ t ∈ tels, t ∈ tels')
    (hct : ∀ t, telKey c = some t → t ∈ tels') :
    ((contactos ++ [c]).map ContactoDict.url).Nodup ∧
      ((contactos ++ [c]).filterMap telKey).Nodup ∧
      (∀ d ∈ contactos ++ [c], d.url ∈ c.url :: urls) ∧
      (∀ d ∈ contactos ++ [c], ∀ t, telKey d = some t → t ∈ tels') := by
  refine ⟨?_, ?_, ?_, ?_⟩
  · rw [List.map_append]
    refine nodup_append_single h1 ?_
    intro hmem
    rcases List.mem_map.1 hmem with ⟨d, hd, hdu⟩
    exact hc1 (hdu ▸ h3 d hd)
  · rw [List.filterMap_append]
    rcases hk : telKey c with _ | t
    · simpa [hk] using h2
    · have hone : List.filterMap telKey [c] = [t] := by
        simp [List.filterMap_cons, hk]
      rw [hone]
      refine nodup_append_single h2 ?_
      intro hmem
      rcases List.mem_filterMap.1 hmem with ⟨d, hd, hdt⟩
      exact hc2 t hk (h4 d hd t hdt)
  · intro d hd
    rcases List.mem_append.1 hd with hd | hd
    · exact List.mem_cons_of_mem _ (h3 d hd)
    · simp only [List.mem_singleton] at hd
      subst hd
      exact List.mem_cons_self _ _
  · intro d hd t ht
    rcases List.mem_append.1 hd with hd | hd
    · exact htels t (h4 d hd t ht)
    · simp only [List.mem_singleton] at hd
      subst hd
      exact hct t ht

/-- The rebuild loop of `eliminar_duplicados` preserves and establishes the
dedup invariant of its accumulator. -/
theorem eliminarAux_inv :
    ∀ (l acc : List ContactoDict) (urls : List (Option String)) (tels : List String),
      (acc.map ContactoDict.url).Nodup →
      (acc.filterMap telKey).Nodup →
      (∀ c ∈ acc, c.url ∈ urls) →
      (∀ c ∈ acc, ∀ t, telKey c = some t → t ∈ tels) →
      ((eliminarAux l acc urls tels).1.map ContactoDict.url).Nodup ∧
        ((eliminarAux l acc urls tels).1.filterMap telKey).Nodup ∧
        (∀ c ∈ (eliminarAux l acc urls tels).1,
          c.url ∈ (eliminarAux l acc urls tels).2.1) ∧
        (∀ c ∈ (eliminarAux l acc urls tels).1, ∀ t, telKey c = some t →
          t ∈ (eliminarAux l acc urls tels).2.2) := by
  intro l
  induction l with
  | nil => intro acc urls tels h1 h2 h3 h4; simpa [eliminarAux] using ⟨h1, h2, h3, h4⟩
  | cons c rest ih =>
      intro acc urls tels h1 h2 h3 h4
      simp only [eliminarAux]
      split
      · next hcond =>
          have hext := inv_extend acc urls tels
            (if truthy c.telefono then c.telefono.getD "" :: tels else tels) c h1 h2 h3
            h4 hcond.1
            (fun t ht hmem => by
              rcases telKey_eq_some ht with ⟨htr, hval⟩
              rcases hcond.2 with hfalse | hnot
              · rw [htr] at hfalse; exact absurd hfalse (by simp)
              · exact hnot (hval ▸ hmem))
            (fun t ht => by
              split
              · exact List.mem_cons_of_mem _ ht
              · exact ht)
            (fun t ht => by
              rcases telKey_eq_some ht with ⟨htr, hval⟩
              rw [htr]
              simp [hval])
          exact ih _ _ _ hext.1 hext.2.1 hext.2.2.1 hext.2.2.2
      · exact ih _ _ _ h1 h2 h3 h4

/-- `eliminar_duplicados` establishes the dedup invariant from any state. -/
theorem inv_eliminar_duplicados (st : GestorSt) : Inv (eliminar_duplicados st) := by
  have h := eliminarAux_inv st.contactos [] [] []
    (by simp) (by simp) (by simp) (by simp)
  exact ⟨h.1, h.2.1, h.2.2.1, h.2.2.2⟩

/-- `agregar_contacto` preserves the dedup invariant. -/
theorem inv_agregar_contacto (f d : Bool) (st : GestorSt) (c : ContactoDict)
    (h : Inv st) : Inv (agregar_contacto f d st c).1 := by
  rcases h with ⟨h1, h2, h3, h4⟩
  simp only [agregar_contacto]
  split
  · exact ⟨h1, h2, h3, h4⟩
  · split
    · exact ⟨h1, h2, h3, h4⟩
    · split
      · exact ⟨h1, h2, h3, h4⟩
      · split
        · exact ⟨h1, h2, h3, h4⟩
        · next hu hts hrel hft =>
            split
            · exact inv_eliminar_duplicados _
            · have hext := inv_extend st.contactos st.urls_vistas st.telefonos_vistos
                (if truthy c.telefono then c.telefono.getD "" :: st.telefonos_vistos
                 else st.telefonos_vistos) c h1 h2 h3
                h4 hu
                (fun t ht hmem => by
                  rcases telKey_eq_some ht with ⟨htr, hval⟩
                  exact hts ⟨htr, hval ▸ hmem⟩)
                (fun t ht => by
                  split
                  · exact List.mem_cons_of_mem _ ht
                  · exact ht)
                (fun t ht => by
                  rcases telKey_eq_some ht with ⟨htr, hval⟩
                  rw [htr]
                  simp [hval])
              exact ⟨hext.1, hext.2.1, hext.2.2.1, hext.2.2.2⟩

/-- When the incoming records already collide neither with the seen-sets nor
among themselves, the rebuild loop of `eliminar_duplicados` keeps every
record, in order. -/
theorem eliminarAux_all_kept :
    ∀ (l acc : List ContactoDict) (urls : List (Option String)) (tels : List String),
      (∀ d ∈ l, d.url ∉ urls) →
      (l.map ContactoDict.url).Nodup →
      (∀ d ∈ l, ∀ t, telKey d = some t → t ∉ tels) →
      (l.filterMap telKey).Nodup →
      (eliminarAux l acc urls tels).1 = acc ++ l := by
  intro l
  induction l with
  | nil => intro acc urls tels _ _ _ _; simp [eliminarAux]
  | cons c rest ih =>
      intro acc urls tels h1 h2 h3 h4
      have hcond : c.url ∉ urls ∧
          (truthy c.telefono = false ∨ c.telefono.getD "" ∉ tels) := by
        refine ⟨h1 c (List.mem_cons_self c rest), ?_⟩
        by_cases htr : truthy c.telefono = true
        · exact Or.inr (h3 c (List.mem_cons_self c rest) _ (by simp [telKey, htr]))
        · exact Or.inl (by simpa using htr)
      have hnodup_cons : c.url ∉ List.map ContactoDict.url rest ∧
          (List.map ContactoDict.url rest).Nodup := List.nodup_cons.1 h2
      simp only [eliminarAux, if_pos hcond]
      rw [ih (acc ++ [c]) _ _ ?_ ?_ ?_ ?_]
      · simp
      · intro d hd
        simp only [List.mem_cons, not_or]
        refine ⟨?_, h1 d (List.mem_cons_of_mem c hd)⟩
        intro heq
        exact hnodup_cons.1 (heq ▸ List.mem_map_of_mem ContactoDict.url hd)
      · exact hnodup_cons.2
      · intro d hd t ht
        by_cases htr : truthy c.telefono = true
        · have hk : telKey c = some (c.telefono.getD "") := by simp [telKey, htr]
          have hfm : (c :: rest).filterMap telKey =
              c.telefono.getD "" :: rest.filterMap telKey := by
            simp [List.filterMap_cons, hk]
          have hnotin := (List.nodup_cons.1 (hfm ▸ h4)).1
          rw [if_pos htr]
          intro hmem
          rcases List.mem_cons.1 hmem with heq | hmem'
          · exact hnotin (heq ▸ List.mem_filterMap.2 ⟨d, hd, ht⟩)
          · exact h3 d (List.mem_cons_of_mem c hd) t ht hmem'
        · rw [if_neg htr]
          exact h3 d (List.mem_cons_of_mem c hd) t ht
      · rcases hk : telKey c with _ | t
        · have : (c :: rest).filterMap telKey = rest.filterMap telKey := by
            simp [List.filterMap_cons, hk]
          exact this ▸ h4
        · have hfm : (c :: rest).filterMap telKey = t :: rest.filterMap telKey := by
            simp [List.filterMap_cons, hk]
          exact (List.nodup_cons.1 (hfm ▸ h4)).2

/-- On a state whose records already have pairwise distinct keys,
`eliminar_duplicados` keeps every record. -/
theorem eliminar_id_contactos (st : GestorSt)
    (h1 : (st.contactos.map ContactoDict.url).Nodup)
    (h2 : (st.contactos.filterMap telKey).Nodup) :
    (eliminar_duplicados st).contactos = st.contactos := by
  have h := eliminarAux_all_kept st.contactos [] [] []
    (by intro d _ hd; exact absurd hd (List.not_mem_nil d.url)) h1
    (by intro d _ t _ hd; exact absurd hd (List.not_mem_nil t)) h2
  simpa [eliminar_duplicados] using h

end GestorDatos

namespace BaseExtractor

/-- On non-empty input, `normalizar_telefono` produces a `'+'` followed by
characters that survive the `[^0-9+]` cleaning. -/
theorem normalizar_shape (t : String) (h : t ≠ "") :
    ∃ M, normalizar_telefono t = String.mk ('+' :: M) ∧
      ∀ c ∈ M, phoneKeep c = true := by
  have hall : ∀ c ∈ t.toList.filter phoneKeep, phoneKeep c = true := by
    intro c hc
    exact List.of_mem_filter hc
  unfold normalizar_telefono
  rw [if_neg h]
  rcases hl : t.toList.filter phoneKeep with _ | ⟨c0, tail⟩
  · refine ⟨['3', '4'], by rfl, ?_⟩
    intro c hc
    have hc' : c = '3' ∨ c = '4' := by simpa using hc
    rcases hc' with rfl | rfl
    · decide
    · decide
  · dsimp only
    by_cases hplus : c0 = '+'
    · subst hplus
      refine ⟨tail, ?_, fun c hc => hall c (hl ▸ List.mem_cons_of_mem _ hc)⟩
      rw [if_pos (by simp)]
    · rw [if_neg (by simp [hplus])]
      by_cases h34 : (['3', '4'] : List Char).isPrefixOf (c0 :: tail) = true
      · rw [if_pos h34]
        exact ⟨c0 :: tail, rfl, fun c hc => hall c (hl ▸ hc)⟩
      · rw [if_neg h34]
        refine ⟨'3' :: '4' :: c0 :: tail, rfl, ?_⟩
        intro c hc
        have hc' : c = '3' ∨ c = '4' ∨ c ∈ c0 :: tail := by simpa using hc
        rcases hc' with rfl | rfl | hc'
        · decide
        · decide
        · exact hall c (hl ▸ hc')

/-- A `'+'`-headed string of clean phone characters is a fixed point of
`normalizar_telefono`. -/
theorem normalizar_fixed (M : List Char) (h : ∀ c ∈ M, phoneKeep c = true) :
    normalizar_telefono (String.mk ('+' :: M)) = String.mk ('+' :: M) := by
  unfold normalizar_telefono
  rw [if_neg (by
    intro heq
    have := congrArg String.data heq
    simp at this)]
  have htl : (String.mk ('+' :: M)).toList = '+' :: M := rfl
  rw [htl]
  have hfil : ('+' :: M).filter phoneKeep = '+' :: M := by
    rw [List.filter_cons_of_pos (by simp [phoneKeep])]
    rw [List.filter_eq_self.2 h]
  rw [hfil]
  simp

end BaseExtractor

/-! Claim theorems. -/

/-- C1: failing input for the exhaustion-checkpoint claim.  With one
comunidad `A`, keywords `k0, k1` and ceiling 1, the run executes only
`(A, k0)`, persists the active checkpoint for the pending unit `(A, k1)`
with `en_ciudad = false` — and then overwrites it with the inactive reset
checkpoint (`main.py` lines 284-297 run even after the budget `break`), so
the checkpoint on disk when the run terminates is not that active
checkpoint, and the next run loads the fresh-start default state instead of
replaying `(A, k1)` from the saved position. -/
theorem c1_exhaustion_checkpoint_overwritten :
    runC1.units.map MainMod.ExecUnit.toSearchUnit = [("A", "comunidad", "k0")] ∧
    runC1.cpWrites =
      [⟨true, "A", 0, "k1", 1, "", 0, false, []⟩,
       ⟨false, "", 0, "", 0, "", 0, false, []⟩] ∧
    runC1.cpWrites.getLast?.map Utils.Checkpoint.activo = some false ∧
    Utils.cargar_punto_control runC1.cpWrites.getLast? = Utils.estadoDefecto := by
  decide

/-- C2: failing input for the idempotent-resume claim.  Interrupting the
`cfgC2` run right after its 6th search unit and resuming processes
`[(B,k1), (b0,k1), (b1,k0), (b1,k1)]` instead of the remaining units
`[(b0,k0), (b0,k1), (b1,k0), (b1,k1)]`: the macro-level unit `(B, k1)` is
repeated and the city unit `(b0, k0)` is skipped, because the resume logic
re-enters the macro keyword loop at the checkpointed keyword index and the
stale `en_ciudad` flag makes the first city honor that index as well. -/
theorem c2_resume_not_idempotent :
    resumedC2.units.map MainMod.ExecUnit.toSearchUnit ≠
      (fullC2.units.map MainMod.ExecUnit.toSearchUnit).drop 6 ∧
    ("b0", "ciudad", "k0") ∈ (fullC2.units.map MainMod.ExecUnit.toSearchUnit).drop 6 ∧
    ("b0", "ciudad", "k0") ∉ resumedC2.units.map MainMod.ExecUnit.toSearchUnit ∧
    ("B", "comunidad", "k1") ∈ (fullC2.units.map MainMod.ExecUnit.toSearchUnit).take 6 ∧
    ("B", "comunidad", "k1") ∈ resumedC2.units.map MainMod.ExecUnit.toSearchUnit := by
  decide

/-- C3: during any run, every counter value persisted by
`actualizar_contador_busquedas` is at most the configured daily ceiling
(a search is only issued when the counter is strictly below the ceiling),
the counter is persisted exactly once per executed search, and loading the
counter on a date different from the stored one resets it to 0. -/
theorem c3_budget_invariant :
    (∀ (cfg : MainMod.RunCfg) (cp : Utils.Checkpoint) (c0 : Nat),
      (∀ v ∈ (MainMod.ejecutar_busqueda cfg cp c0).ctrWrites, v ≤ cfg.limite) ∧
      (MainMod.ejecutar_busqueda cfg cp c0).ctrWrites.length =
        (MainMod.ejecutar_busqueda cfg cp c0).units.length) ∧
    (∀ (hoy : String) (d : Utils.DatosContador), d.fecha ≠ hoy →
      Utils.gestionar_contador_busquedas hoy (some d) = (0, hoy)) := by
  constructor
  · intro cfg cp c0
    exact MainMod.ctrOk_ejecutar_busqueda cfg cp c0
  · intro hoy d hne
    simp [Utils.gestionar_contador_busquedas, hne]

/-- C3 witness: the bound and the date reset at concrete inputs. -/
theorem c3_budget_invariant_witness :
    (1 ∈ (MainMod.ejecutar_busqueda ⟨["k"], ["X"], [], 2⟩ Utils.estadoDefecto 0).ctrWrites ∧
      1 ≤ 2) ∧
    Utils.gestionar_contador_busquedas "2026-10-12" (some ⟨"2026-10-11", 7⟩) =
      (0, "2026-10-12") := by
  refine ⟨⟨by decide, ?_⟩, ?_⟩
  · exact (c3_budget_invariant.1 ⟨["k"], ["X"], [], 2⟩ Utils.estadoDefecto 0).1 1 (by decide)
  · exact c3_budget_invariant.2 "2026-10-12" ⟨"2026-10-11", 7⟩ (by decide)

/-- C4: the dedup invariant — no two stored records share a `url`, no two
share a truthy `telefono`, and stored keys are registered in the seen-sets —
is preserved by every `agregar_contacto` call (with either value of the
flush trigger) and is established by `eliminar_duplicados` from any
state. -/
theorem c4_dedup_invariant :
    ∀ (f d : Bool) (st : GestorDatos.GestorSt) (c : GestorDatos.ContactoDict)
      (st2 : GestorDatos.GestorSt),
      GestorDatos.Inv st →
      GestorDatos.Inv (GestorDatos.agregar_contacto f d st c).1 ∧
        GestorDatos.Inv (GestorDatos.eliminar_duplicados st2) := by
  intro f d st c st2 h
  exact ⟨GestorDatos.inv_agregar_contacto f d st c h,
    GestorDatos.inv_eliminar_duplicados st2⟩

/-- C4 witness: the invariant holds for the empty store and is preserved
when a concrete record is added. -/
theorem c4_dedup_invariant_witness :
    GestorDatos.Inv ⟨[], [], []⟩ ∧
    GestorDatos.Inv (GestorDatos.agregar_contacto true false ⟨[], [], []⟩
      ⟨some "https://x.es", some "+34666112233", none⟩).1 ∧
    GestorDatos.Inv (GestorDatos.eliminar_duplicados ⟨[], [], []⟩) := by
  have h0 : GestorDatos.Inv ⟨[], [], []⟩ := by
    simp [GestorDatos.Inv]
  have h := c4_dedup_invariant true false ⟨[], [], []⟩
    ⟨some "https://x.es", some "+34666112233", none⟩ ⟨[], [], []⟩ h0
  exact ⟨h0, h.1, h.2⟩

/-- C5 counterexample: the claim says a record with email
`support@jquery.com` is rejected by email validation, but the static
extractor has no validation: on a 200 page containing that address the
stored record carries `email = some "support@jquery.com"` — the match is
accepted, not rejected. -/
theorem c5_counterexample :
    (StaticExtractor.extraer_info "https://plugins.ejemplo.es/contacto" "Madrid"
        "comunidad" "reparacion" true
        (some ⟨200, "Soporte: support@jquery.com", some "Plugins"⟩)).email =
      some "support@jquery.com" := by
  decide

/-- C5 amended: the extractor applies no library-domain, local-part-length
or top-level-label validation — its email matching is exactly the first
regex match of `[\w\.-]+@[\w\.-]+\.\w+`, lowercased — so
`support@jquery.com` is accepted exactly like `maria@panaderia.es`. -/
theorem c5_email_matching_has_no_validation :
    (StaticExtractor.extraer_info "https://libs.ejemplo.es" "Madrid" "comunidad"
        "reparacion" true
        (some ⟨200, "Escriba a support@jquery.com", some "Libs"⟩)).email =
      some "support@jquery.com" ∧
    (StaticExtractor.extraer_info "https://panaderia.ejemplo.es" "Madrid" "comunidad"
        "panaderia" true
        (some ⟨200, "Pedidos: maria@panaderia.es", some "Panaderia"⟩)).email =
      some "maria@panaderia.es" ∧
    (BaseExtractor.findFirstEmail "Escriba a support@jquery.com".toList).map
        String.mk = some "support@jquery.com" := by
  refine ⟨by decide, by decide, by decide⟩

/-- C7: normalizing `"34 666 11 22 33"` yields `"+34666112233"`, and the
WhatsApp link derived from that normalized phone contains the digit string
`34666112233`. -/
theorem c7_phone_normalization_scenario :
    BaseExtractor.normalizar_telefono "34 666 11 22 33" = "+34666112233" ∧
    (BaseExtractor.generar_link_whatsapp
        (BaseExtractor.normalizar_telefono "34 666 11 22 33")).map
      (fun s => PyStr.containsSub s.toList "34666112233".toList) = some true := by
  refine ⟨by decide, by decide⟩

/-- C10: `normalizar_telefono` is idempotent: its output is either empty or
starts with `'+'` and consists of characters the cleaning step keeps, so a
second normalization returns it unchanged. -/
theorem c10_normalizar_telefono_idempotent (t : String) :
    BaseExtractor.normalizar_telefono (BaseExtractor.normalizar_telefono t) =
      BaseExtractor.normalizar_telefono t := by
  by_cases h : t = ""
  · subst h
    rfl
  · rcases BaseExtractor.normalizar_shape t h with ⟨M, hM, hall⟩
    rw [hM, BaseExtractor.normalizar_fixed M hall]

/-- C9: external failures never surface: both exception classes make
`buscar` return the empty URL list, and both extractors return a record
whose identifying fields `url`, `zona`, `tipo_zona`, `keyword` are always
populated with the inputs, whatever the robots verdict or fetch outcome
(exception, non-200 status, missing title, malformed URL). -/
theorem c9_failures_degrade_gracefully :
    (∀ maxR : Nat, Buscador.buscar maxR Buscador.Respuesta.raisedRequest = [] ∧
      Buscador.buscar maxR Buscador.Respuesta.raisedOther = []) ∧
    (∀ (url zona tipo_zona keyword : String) (robots : Bool)
        (resp : Option StaticExtractor.RespuestaHttp),
      (StaticExtractor.extraer_info url zona tipo_zona keyword robots resp).url = url ∧
      (StaticExtractor.extraer_info url zona tipo_zona keyword robots resp).zona = zona ∧
      (StaticExtractor.extraer_info url zona tipo_zona keyword robots resp).tipo_zona =
        tipo_zona ∧
      (StaticExtractor.extraer_info url zona tipo_zona keyword robots resp).keyword =
        keyword) ∧
    (∀ (url zona tipo_zona keyword : String) (robots : Bool)
        (pagina : Option DynamicExtractor.PaginaSelenium),
      (DynamicExtractor.extraer_info url zona tipo_zona keyword robots pagina).url = url ∧
      (DynamicExtractor.extraer_info url zona tipo_zona keyword robots pagina).zona = zona ∧
      (DynamicExtractor.extraer_info url zona tipo_zona keyword robots pagina).tipo_zona =
        tipo_zona ∧
      (DynamicExtractor.extraer_info url zona tipo_zona keyword robots pagina).keyword =
        keyword) := by
  refine ⟨fun maxR => ⟨rfl, rfl⟩, ?_, ?_⟩
  · intro url zona tipo_zona keyword robots resp
    unfold StaticExtractor.extraer_info
    repeat' split
    all_goals simp [Registro.base]
  · intro url zona tipo_zona keyword robots pagina
    unfold DynamicExtractor.extraer_info
    repeat' split
    all_goals simp [Registro.base]

/-- C6: the relevance score equals (relevant-in-body + 2 × relevant-in-title
− irrelevant-in-body), normalized against 3 × the relevant-term count and
clamped to [0,100]; acceptance holds exactly when the score is ≥ 40; and
with the sector profile absent (active sector and `default` both missing)
every page scores 0 and is marked not relevant. -/
theorem c6_relevance_score_formula :
    ∀ (f g : Evaluador.Filtros) (texto titulo : String),
      (0 < (Evaluador._obtener_terminos_relevancia f).1.length →
        (Evaluador.evaluar_pagina f texto titulo).puntuacion =
          min 100 (max 0
            (((((Evaluador._obtener_terminos_relevancia f).1.countP
                  (Evaluador.enTexto (PyStr.lower texto)) : ℤ) +
                2 * ((Evaluador._obtener_terminos_relevancia f).1.countP
                  (Evaluador.enTexto
                    (if titulo ≠ "" then PyStr.lower titulo else "")) : ℤ) -
                ((Evaluador._obtener_terminos_relevancia f).2.countP
                  (Evaluador.enTexto (PyStr.lower texto)) : ℤ) : ℤ) : ℚ) /
              ((3 * (Evaluador._obtener_terminos_relevancia f).1.length : ℕ) : ℚ) *
              100))) ∧
      ((Evaluador.evaluar_pagina f texto titulo).es_relevante = true ↔
        (40 : ℚ) ≤ (Evaluador.evaluar_pagina f texto titulo).puntuacion) ∧
      (0 ≤ (Evaluador.evaluar_pagina f texto titulo).puntuacion ∧
        (Evaluador.evaluar_pagina f texto titulo).puntuacion ≤ 100) ∧
      (g.sectores.lookup g.sector_activo = none →
        g.sectores.lookup "default" = none →
        (Evaluador.evaluar_pagina g texto titulo).puntuacion = 0 ∧
          (Evaluador.evaluar_pagina g texto titulo).es_relevante = false) := by
  intro f g texto titulo
  refine ⟨?_, ?_, ?_, ?_⟩
  · intro hn
    simp only [Evaluador.evaluar_pagina]
    rw [Nat.max_eq_right (by omega)]
    push_cast
    ring_nf
  · simp only [Evaluador.evaluar_pagina, decide_eq_true_eq]
  · constructor
    · exact le_min (by norm_num) (le_max_left _ _)
    · exact min_le_left _ _
  · intro h1 h2
    simp [Evaluador.evaluar_pagina, Evaluador._obtener_terminos_relevancia, h1, h2]

/-- C6 witness: the formula, acceptance and absent-profile conclusions at
concrete inputs. -/
theorem c6_relevance_score_formula_witness :
    0 < (Evaluador._obtener_terminos_relevancia
      ⟨[("default", ⟨["pan"], ["bar"]⟩)], "default"⟩).1.length ∧
    (Evaluador.evaluar_pagina ⟨[("default", ⟨["pan"], ["bar"]⟩)], "default"⟩
      "hay pan" "El pan").puntuacion = 100 ∧
    ((Evaluador.evaluar_pagina ⟨[("default", ⟨["pan"], ["bar"]⟩)], "default"⟩
        "hay pan" "El pan").es_relevante = true ↔
      (40 : ℚ) ≤ (Evaluador.evaluar_pagina ⟨[("default", ⟨["pan"], ["bar"]⟩)], "default"⟩
        "hay pan" "El pan").puntuacion) ∧
    (⟨[], "x"⟩ : Evaluador.Filtros).sectores.lookup "x" = none ∧
    (Evaluador.evaluar_pagina ⟨[], "x"⟩ "algo" "t").puntuacion = 0 ∧
    (Evaluador.evaluar_pagina ⟨[], "x"⟩ "algo" "t").es_relevante = false := by
  refine ⟨by decide, ?_,
    (c6_relevance_score_formula ⟨[("default", ⟨["pan"], ["bar"]⟩)], "default"⟩
      ⟨[], "x"⟩ "hay pan" "El pan").2.1,
    rfl,
    ((c6_relevance_score_formula ⟨[("default", ⟨["pan"], ["bar"]⟩)], "default"⟩
      ⟨[], "x"⟩ "algo" "t").2.2.2 rfl rfl).1,
    ((c6_relevance_score_formula ⟨[("default", ⟨["pan"], ["bar"]⟩)], "default"⟩
      ⟨[], "x"⟩ "algo" "t").2.2.2 rfl rfl).2⟩
  have h := (c6_relevance_score_formula ⟨[("default", ⟨["pan"], ["bar"]⟩)], "default"⟩
    ⟨[], "x"⟩ "hay pan" "El pan").1 (by decide)
  rw [h]
  have hterm : Evaluador._obtener_terminos_relevancia
      ⟨[("default", ⟨["pan"], ["bar"]⟩)], "default"⟩ = (["pan"], ["bar"]) := by decide
  rw [hterm]
  have hc1 : Evaluador.enTexto (PyStr.lower "hay pan") "pan" = true := by decide
  have hc2 : Evaluador.enTexto
      (if ("El pan" : String) ≠ "" then PyStr.lower "El pan" else "") "pan" = true := by
    decide
  have hc3 : Evaluador.enTexto (PyStr.lower "hay pan") "bar" = false := by decide
  simp only [List.countP_cons, List.countP_nil, hc1, hc2, hc3]
  norm_num [min_def, max_def]

/-- C8: `agregar_contacto` returns `false` exactly when the url was already
seen, or the truthy phone was already seen, or the record carries
`es_relevante = false`, or the store requires a phone and the record has
none; and whenever it returns `true` (from an invariant-satisfying state)
the record is stored and its url and truthy phone are marked as seen. -/
theorem c8_agregar_contacto_contract :
    ∀ (f d : Bool) (st : GestorDatos.GestorSt) (c : GestorDatos.ContactoDict),
      ((GestorDatos.agregar_contacto f d st c).2 = false ↔
        (c.url ∈ st.urls_vistas ∨
          (GestorDatos.truthy c.telefono = true ∧
            c.telefono.getD "" ∈ st.telefonos_vistos) ∨
          c.es_relevante = some false ∨
          (f = true ∧ GestorDatos.truthy c.telefono = false))) ∧
      (GestorDatos.Inv st → (GestorDatos.agregar_contacto f d st c).2 = true →
        c ∈ (GestorDatos.agregar_contacto f d st c).1.contactos ∧
        c.url ∈ (GestorDatos.agregar_contacto f d st c).1.urls_vistas ∧
        ∀ t, GestorDatos.telKey c = some t →
          t ∈ (GestorDatos.agregar_contacto f d st c).1.telefonos_vistos) := by
  intro f d st c
  simp only [GestorDatos.agregar_contacto]
  split
  · next hu =>
      exact ⟨iff_of_true rfl (Or.inl hu), fun _ htrue => by simp at htrue⟩
  · next hu =>
      split
      · next htl =>
          exact ⟨iff_of_true rfl (Or.inr (Or.inl htl)), fun _ htrue => by simp at htrue⟩
      · next htl =>
          split
          · next hrel =>
              exact ⟨iff_of_true rfl (Or.inr (Or.inr (Or.inl hrel))),
                fun _ htrue => by simp at htrue⟩
          · next hrel =>
              split
              · next hft =>
                  exact ⟨iff_of_true rfl (Or.inr (Or.inr (Or.inr hft))),
                    fun _ htrue => by simp at htrue⟩
              · next hft =>
                  refine ⟨iff_of_false (by simp) ?_, ?_⟩
                  · rintro (h | h | h | h)
                    · exact hu h
                    · exact htl h
                    · exact hrel h
                    · exact hft h
                  · intro hInv _
                    have hext := GestorDatos.inv_extend st.contactos st.urls_vistas
                      st.telefonos_vistos
                      (if GestorDatos.truthy c.telefono = true then
                        c.telefono.getD "" :: st.telefonos_vistos
                       else st.telefonos_vistos)
                      c hInv.1 hInv.2.1 hInv.2.2.1 hInv.2.2.2 hu
                      (fun t ht hmem => htl ⟨(GestorDatos.telKey_eq_some ht).1, by
                        rw [(GestorDatos.telKey_eq_some ht).2]
                        exact hmem⟩)
                      (fun t ht => by
                        split
                        · exact List.mem_cons_of_mem _ ht
                        · exact ht)
                      (fun t ht => by
                        rw [if_pos (GestorDatos.telKey_eq_some ht).1,
                          ← (GestorDatos.telKey_eq_some ht).2]
                        exact List.mem_cons_self _ _)
                    split
                    · have hkeep := GestorDatos.eliminar_id_contactos
                        ⟨st.contactos ++ [c], c.url :: st.urls_vistas,
                         if GestorDatos.truthy c.telefono = true then
                           c.telefono.getD "" :: st.telefonos_vistos
                         else st.telefonos_vistos⟩ hext.1 hext.2.1
                      have hInvE := GestorDatos.inv_eliminar_duplicados
                        ⟨st.contactos ++ [c], c.url :: st.urls_vistas,
                         if GestorDatos.truthy c.telefono = true then
                           c.telefono.getD "" :: st.telefonos_vistos
                         else st.telefonos_vistos⟩
                      have hcmem : c ∈ (GestorDatos.eliminar_duplicados
                          ⟨st.contactos ++ [c], c.url :: st.urls_vistas,
                           if GestorDatos.truthy c.telefono = true then
                             c.telefono.getD "" :: st.telefonos_vistos
                           else st.telefonos_vistos⟩).contactos := by
                        rw [hkeep]
                        simp
                      exact ⟨hcmem, hInvE.2.2.1 c hcmem,
                        fun t ht => hInvE.2.2.2 c hcmem t ht⟩
                    · refine ⟨by simp, List.mem_cons_self _ _, ?_⟩
                      intro t ht
                      rw [if_pos (GestorDatos.telKey_eq_some ht).1,
                        ← (GestorDatos.telKey_eq_some ht).2]
                      exact List.mem_cons_self _ _

/-- C8 witness: a fresh record is accepted by the empty store, stored, and
its keys are marked seen. -/
theorem c8_agregar_contacto_contract_witness :
    GestorDatos.Inv ⟨[], [], []⟩ ∧
    (GestorDatos.agregar_contacto false false ⟨[], [], []⟩
      ⟨some "https://a.es", some "+34666112233", none⟩).2 = true ∧
    ⟨some "https://a.es", some "+34666112233", none⟩ ∈
      (GestorDatos.agregar_contacto false false ⟨[], [], []⟩
        ⟨some "https://a.es", some "+34666112233", none⟩).1.contactos ∧
    some "https://a.es" ∈
      (GestorDatos.agregar_contacto false false ⟨[], [], []⟩
        ⟨some "https://a.es", some "+34666112233", none⟩).1.urls_vistas := by
  have h0 : GestorDatos.Inv ⟨[], [], []⟩ := by
    simp [GestorDatos.Inv]
  have h := (c8_agregar_contacto_contract false false ⟨[], [], []⟩
    ⟨some "https://a.es", some "+34666112233", none⟩).2 h0 (by decide)
  exact ⟨h0, by decide, h.1, h.2.1⟩
